import Mathlib

/-!
Shallow embedding of the bounded Bravais-lattice layer of
`src/bloqade/ir/location/bravais.py`.

Scalar values (lattice spacing, scale factors, coordinates) are modelled in
the ring ℚ[√3], represented as pairs `⟨a, b⟩` standing for `a + b·√3`: every
numeric constant the source uses (`1`, `1/2`, `np.sqrt(3)/2`, `1/(2*np.sqrt(3))`,
`np.sqrt(3)/4`) lives in this ring, and it is computable with decidable
equality.  The lattice families are a closed inductive of kinds; a
`BoundedBravais` record carries the dataclass fields (`shape`,
`lattice_spacing`, and `ratio`, which only Rectangular reads) together with
the two name-mangled lazy caches `__n_atoms` / `__n_dims`.  A cache field is
`Option (Option ℕ)`: the outer `none` means the Python attribute does not
exist on the object (as after `scale`, which builds the copy with `__new__`
and copies only the dataclass fields), `some none` means it was initialised
to Python `None` by `__init__`, and `some (some v)` means a value is cached.
Python property access is modelled as an `Except`-valued state transition.
-/

/-- An element `a + b·√3` of ℚ[√3]. -/
structure Q3 where
  a : ℚ
  b : ℚ
deriving DecidableEq, Repr

def Q3.zero : Q3 := ⟨0, 0⟩

def Q3.one : Q3 := ⟨1, 0⟩

def Q3.add (x y : Q3) : Q3 := ⟨x.a + y.a, x.b + y.b⟩

def Q3.mul (x y : Q3) : Q3 := ⟨x.a * y.a + 3 * x.b * y.b, x.a * y.b + x.b * y.a⟩

def Q3.ofRat (q : ℚ) : Q3 := ⟨q, 0⟩

def Q3.ofNat (n : ℕ) : Q3 := ⟨n, 0⟩

/-- Multiplicative inverse in ℚ[√3] (junk value `⟨0,0⟩` at `0`, where the
Python numeric division would raise). -/
def Q3.inv (x : Q3) : Q3 :=
  ⟨x.a / (x.a ^ 2 - 3 * x.b ^ 2), -x.b / (x.a ^ 2 - 3 * x.b ^ 2)⟩

def Q3.div (x y : Q3) : Q3 := x.mul y.inv

/-- `√3/2`, the second component of the hex-lattice cell vector. -/
def halfSqrt3 : Q3 := ⟨0, 1/2⟩

/-- `1/(2·√3) = √3/6`, the honeycomb second-atom y offset. -/
def invTwoSqrt3 : Q3 := ⟨0, 1/6⟩

/-- `√3/4`, the kagome third-atom y offset. -/
def quarterSqrt3 : Q3 := ⟨0, 1/4⟩

/-- Componentwise vector addition (numpy broadcasting `pos + atoms` row). -/
def vadd (v w : List Q3) : List Q3 := List.zipWith Q3.add v w

/-- One row of `vectors.T * index` summed over axis 1:
`Σ_k row[k] * index[k]` with numpy's elementwise product then `np.sum`. -/
def rowDot (index : List ℕ) (row : List Q3) : Q3 :=
  (List.zipWith (fun x i => Q3.mul x (Q3.ofNat i)) row index).foldl Q3.add Q3.zero

/-- The closed set of concrete lattice families of the module. -/
inductive LatticeKind
  | chain | square | rectangular | honeycomb | triangular | lieb | kagome
deriving DecidableEq, Repr

/-- State of a `BoundedBravais` instance: the pydantic dataclass fields
(`shape`, `lattice_spacing`, plus Rectangular's `ratio`, defaulted to `1`
and unread by every other family) and the two private lazy caches.  The
concrete Python class is recorded as `kind`. -/
structure BoundedBravais where
  kind : LatticeKind
  shape : List ℕ
  lattice_spacing : Q3
  ratio : Q3
  n_atoms_cache : Option (Option ℕ)
  n_dims_cache : Option (Option ℕ)
deriving DecidableEq, Repr

/-- `cell_vectors` of each concrete family, verbatim from the source
(note Chain returns the single two-component vector `[1, 0]`). -/
def cell_vectors (l : BoundedBravais) : List (List Q3) :=
  match l.kind with
  | .chain => [[Q3.one, Q3.zero]]
  | .square => [[Q3.one, Q3.zero], [Q3.zero, Q3.one]]
  | .rectangular => [[Q3.one, Q3.zero], [Q3.zero, l.ratio]]
  | .honeycomb => [[Q3.one, Q3.zero], [Q3.ofRat (1/2), halfSqrt3]]
  | .triangular => [[Q3.one, Q3.zero], [Q3.ofRat (1/2), halfSqrt3]]
  | .lieb => [[Q3.one, Q3.zero], [Q3.zero, Q3.one]]
  | .kagome => [[Q3.one, Q3.zero], [Q3.ofRat (1/2), halfSqrt3]]

/-- `cell_atoms` of each concrete family, verbatim from the source. -/
def cell_atoms (l : BoundedBravais) : List (List Q3) :=
  match l.kind with
  | .chain => [[Q3.zero, Q3.zero]]
  | .square => [[Q3.zero, Q3.zero]]
  | .rectangular => [[Q3.zero, Q3.zero]]
  | .honeycomb => [[Q3.zero, Q3.zero], [Q3.ofRat (1/2), invTwoSqrt3]]
  | .triangular => [[Q3.zero, Q3.zero]]
  | .lieb => [[Q3.zero, Q3.zero], [Q3.ofRat (1/2), Q3.zero], [Q3.zero, Q3.ofRat (1/2)]]
  | .kagome => [[Q3.zero, Q3.zero], [Q3.ofRat (1/2), Q3.zero], [Q3.ofRat (1/4), quarterSqrt3]]

/-- `BoundedBravais.coordinates(index)`:
`pos = np.sum(vectors.T * index, axis=1)` is, per output component `j`,
`Σ_k vectors[k][j] * index[k]` (a row of the transpose dotted with the
index), and the result is `pos + np.array(cell_atoms())`, i.e. `pos` added
to every atom-offset row. -/
def coordinates (l : BoundedBravais) (index : List ℕ) : List (List Q3) :=
  let pos := (List.transpose (cell_vectors l)).map (rowDot index)
  (cell_atoms l).map (fun at0 => vadd pos at0)

/-- `itertools.product(*[range(n) for n in shape])`: the Cartesian product of
the ranges in row-major (lexicographic, rightmost index fastest) order. -/
def product_ranges : List ℕ → List (List ℕ)
  | [] => [[]]
  | n :: rest => (List.range n).flatMap fun i => (product_ranges rest).map fun t => i :: t

/-- The element type yielded by `enumerate`: an absolute position paired
with the `filling` flag. -/
structure LocationInfo where
  position : List Q3
  filled : Bool
deriving DecidableEq, Repr

/-- `BoundedBravais.enumerate()`: for each multi-index of the shape ranges,
each row of `coordinates(index)` is scaled componentwise by
`lattice_spacing` and yielded as a `LocationInfo` with flag `True`. -/
def BoundedBravais.enumerate (l : BoundedBravais) : List LocationInfo :=
  (product_ranges l.shape).flatMap fun index =>
    (coordinates l index).map fun pos =>
      { position := pos.map (fun x => Q3.mul l.lattice_spacing x), filled := true }

/-- `len(cell_atoms()) * np.prod(shape)` — the value the `n_atoms` property
computes. -/
def n_atoms_value (l : BoundedBravais) : ℕ := (cell_atoms l).length * l.shape.prod

/-- `len(cell_vectors())` — the value the `n_dims` property computes. -/
def n_dims_value (l : BoundedBravais) : ℕ := (cell_vectors l).length

/-- Python truthiness of the cached attribute value: `None` and `0` are
falsy, every other int is truthy. -/
def pyFalsy : Option ℕ → Bool
  | none => true
  | some v => v == 0

/-- One access of the `n_atoms` property: reading a missing attribute (outer
`none`, as on objects produced by `scale`) raises `AttributeError`;
otherwise `if not self.__n_atoms:` recomputes and stores whenever the cached
value is falsy.  Returns the value, the post-state, and whether the body
recomputed. -/
def n_atoms_get (l : BoundedBravais) : Except String (ℕ × BoundedBravais × Bool) :=
  match l.n_atoms_cache with
  | none => Except.error "AttributeError"
  | some cached =>
    if pyFalsy cached then
      let v := n_atoms_value l
      Except.ok (v, { l with n_atoms_cache := some (some v) }, true)
    else
      Except.ok (cached.getD 0, l, false)

/-- One access of the `n_dims` property, same lazy-falsy pattern as
`n_atoms`. -/
def n_dims_get (l : BoundedBravais) : Except String (ℕ × BoundedBravais × Bool) :=
  match l.n_dims_cache with
  | none => Except.error "AttributeError"
  | some cached =>
    if pyFalsy cached then
      let v := n_dims_value l
      Except.ok (v, { l with n_dims_cache := some (some v) }, true)
    else
      Except.ok (cached.getD 0, l, false)

/-- Just the returned value of an `n_atoms` access. -/
def n_atoms_fst (l : BoundedBravais) : Except String ℕ :=
  (n_atoms_get l).map fun r => r.1

/-- Just the returned value of an `n_dims` access. -/
def n_dims_fst (l : BoundedBravais) : Except String ℕ :=
  (n_dims_get l).map fun r => r.1

/-- `BoundedBravais.scale(factor)`: `self.__new__(type(self))` followed by a
copy of the dataclass fields only, with `lattice_spacing` replaced by
`factor * self.lattice_spacing`.  `__init__` never runs, so the name-mangled
`__n_atoms` / `__n_dims` attributes do not exist on the copy (outer `none`). -/
def BoundedBravais.scale (l : BoundedBravais) (factor : Q3) : BoundedBravais :=
  { kind := l.kind
    shape := l.shape
    lattice_spacing := Q3.mul factor l.lattice_spacing
    ratio := l.ratio
    n_atoms_cache := none
    n_dims_cache := none }

/-- `BoundedBravais.__init__(*shape, lattice_spacing)`: stores the fields and
initialises both private caches to Python `None`. -/
def mkBoundedBravais (kind : LatticeKind) (shape : List ℕ) (spacing : Q3) (ratio : Q3) :
    BoundedBravais :=
  { kind := kind
    shape := shape
    lattice_spacing := spacing
    ratio := ratio
    n_atoms_cache := some none
    n_dims_cache := some none }

/-- A user-facing constructor call of one of the seven families, with its
actual argument lists. -/
inductive Construction
  | chain (L : ℕ) (spacing : Q3)
  | square (L : ℕ) (spacing : Q3)
  | rectangular (width height : ℕ) (lsx : Q3) (lsy : Option Q3)
  | honeycomb (L : ℕ) (spacing : Q3)
  | triangular (L : ℕ) (spacing : Q3)
  | lieb (L : ℕ) (spacing : Q3)
  | kagome (L : ℕ) (spacing : Q3)
deriving DecidableEq, Repr

/-- The `__init__` of each family: expands the size argument(s) into the
shape tuple and forwards to the base `__init__`.  `Rectangular` first
derives `ratio = lattice_spacing_y / lattice_spacing_x`
(`1 / lattice_spacing_x` when the y spacing is omitted) and passes
`lattice_spacing_x` down as the single lattice spacing; every other family
leaves `ratio` at its dataclass default `1`. -/
def build : Construction → BoundedBravais
  | .chain L sp => mkBoundedBravais .chain [L] sp Q3.one
  | .square L sp => mkBoundedBravais .square [L, L] sp Q3.one
  | .rectangular w h lsx lsy =>
      let r := match lsy with
        | none => Q3.div Q3.one lsx
        | some y => Q3.div y lsx
      mkBoundedBravais .rectangular [w, h] lsx r
  | .honeycomb L sp => mkBoundedBravais .honeycomb [L, L] sp Q3.one
  | .triangular L sp => mkBoundedBravais .triangular [L, L] sp Q3.one
  | .lieb L sp => mkBoundedBravais .lieb [L, L] sp Q3.one
  | .kagome L sp => mkBoundedBravais .kagome [L, L] sp Q3.one

/-- The zero vector of the (two-component) coordinate space every family of
this module works in. -/
def zero2 : List Q3 := [Q3.zero, Q3.zero]

/-- Modelled from the spec: the unit-cell origin
`origin(i) = Σ_k i_k · cellVector_k`, a vector sum of the primitive vectors
weighted by the multi-index, over the given vector list. -/
def specOriginV (vectors : List (List Q3)) (index : List ℕ) : List Q3 :=
  (List.zipWith (fun i v => v.map (Q3.mul (Q3.ofNat i))) index vectors).foldl vadd zero2

/-- Modelled from the spec: enumerate every multi-index of the shape ranges
in row-major order, then for each atom offset `a` in declared order emit the
position `lattice_spacing * (origin(i) + a)` componentwise, paired with
presence flag `true`. -/
def specEnumerate (l : BoundedBravais) : List LocationInfo :=
  (product_ranges l.shape).flatMap fun index =>
    (cell_atoms l).map fun at0 =>
      { position := (vadd (specOriginV (cell_vectors l) index) at0).map
          (fun x => Q3.mul l.lattice_spacing x)
        filled := true }

theorem Q3.mul_comm' (x y : Q3) : x.mul y = y.mul x := by
  cases x; cases y
  simp only [Q3.mul, Q3.mk.injEq]
  constructor <;> ring


theorem Q3.mul_mul (k m s : Q3) : m.mul (k.mul s) = (k.mul m).mul s := by
  cases k; cases m; cases s
  simp only [Q3.mul, Q3.mk.injEq]
  constructor <;> ring

/-- The numpy transposed row-dot origin agrees with the spec's weighted
vector sum for a single two-component cell vector, at every index list. -/
theorem origin_one (v1 v2 : Q3) (index : List ℕ) :
    (List.transpose [[v1, v2]]).map (rowDot index) = specOriginV [[v1, v2]] index := by
  have ht : List.transpose [[v1, v2]] = [[v1], [v2]] := rfl
  rw [ht]
  cases index with
  | nil => rfl
  | cons i rest =>
    simp [rowDot, specOriginV, vadd, zero2, Q3.mul_comm']

/-- The numpy transposed row-dot origin agrees with the spec's weighted
vector sum for two two-component cell vectors, at every index list. -/
theorem origin_two (v1 v2 w1 w2 : Q3) (index : List ℕ) :
    (List.transpose [[v1, v2], [w1, w2]]).map (rowDot index) =
      specOriginV [[v1, v2], [w1, w2]] index := by
  have ht : List.transpose [[v1, v2], [w1, w2]] = [[v1, w1], [v2, w2]] := rfl
  rw [ht]
  match index with
  | [] => rfl
  | [i] => simp [rowDot, specOriginV, vadd, zero2, Q3.mul_comm']
  | i :: j :: rest => simp [rowDot, specOriginV, vadd, zero2, Q3.mul_comm']

/-- The broadcast `np.sum(vectors.T * index, axis=1)` equals the spec's
`Σ_k i_k · cellVector_k` for every family's cell vectors. -/
theorem origin_vectors (l : BoundedBravais) (index : List ℕ) :
    (List.transpose (cell_vectors l)).map (rowDot index) =
      specOriginV (cell_vectors l) index := by
  cases h : l.kind <;> simp only [cell_vectors, h] <;>
    first
      | exact origin_one _ _ index
      | exact origin_two _ _ _ _ index

/-- `coordinates(index)` is exactly the list of `origin(index) + a` over the
declared atom offsets `a`. -/
theorem coordinates_eq_spec (l : BoundedBravais) (index : List ℕ) :
    coordinates l index =
      (cell_atoms l).map (fun at0 => vadd (specOriginV (cell_vectors l) index) at0) := by
  unfold coordinates
  rw [origin_vectors]

/-- Claim C1: for every lattice family variant and every shape,
`enumerate()` yields exactly the row-major multi-index enumeration in which,
for each multi-index `i` and each declared cell-atom offset `a` in order,
the position `lattice_spacing * (Σ_k i_k · cellVector_k + a)` is emitted
with presence flag `true` — i.e. the source `enumerate` coincides with the
enumeration modelled from the spec's words. -/
theorem enumerate_follows_spec (l : BoundedBravais) : l.enumerate = specEnumerate l := by
  unfold BoundedBravais.enumerate specEnumerate
  simp only [coordinates_eq_spec, List.map_map]
  rfl

/-- The Cartesian product of the shape ranges has `∏ shape` elements. -/
theorem length_product_ranges (s : List ℕ) : (product_ranges s).length = s.prod := by
  induction s with
  | nil => rfl
  | cons n rest ih =>
    simp [product_ranges, List.length_flatMap, Function.comp_def, Function.comp,
      List.length_map, ih, List.map_const', List.sum_replicate, smul_eq_mul,
      List.prod_cons, mul_comm]

/-- `enumerate` yields `len(cell_atoms()) * ∏ shape` records. -/
theorem enumerate_length (l : BoundedBravais) :
    (l.enumerate).length = (cell_atoms l).length * l.shape.prod := by
  simp [BoundedBravais.enumerate, List.length_flatMap, Function.comp_def, Function.comp,
    List.length_map, coordinates, List.map_const', List.sum_replicate, smul_eq_mul,
    length_product_ranges, mul_comm]

/-- Claim C2: for every family constructor call, the first `n_atoms` access
returns `len(cell_atoms()) * ∏ shape`, and that value equals the number of
elements yielded by `enumerate()`. -/
theorem n_atoms_counts_enumerate (c : Construction) :
    n_atoms_fst (build c) = Except.ok ((cell_atoms (build c)).length * (build c).shape.prod)
      ∧ ((build c).enumerate).length = (cell_atoms (build c)).length * (build c).shape.prod := by
  cases c <;> exact ⟨rfl, enumerate_length _⟩

/-- Claim C3: `scale(factor)` returns an instance of the same concrete
family whose `shape` (and `ratio`, the one extra Rectangular field) equals
the original's, and whose `lattice_spacing` is `factor * lattice_spacing`;
the original is untouched (the transform is a pure function of the
original record, which `scale` never rebinds). -/
theorem scale_preserves_all_other_fields (l : BoundedBravais) (factor : Q3) :
    (l.scale factor).kind = l.kind ∧ (l.scale factor).shape = l.shape ∧
      (l.scale factor).ratio = l.ratio ∧
      (l.scale factor).lattice_spacing = Q3.mul factor l.lattice_spacing :=
  ⟨rfl, rfl, rfl, rfl⟩

/-- Claim C4: `scale(k).scale(m)` enumerates exactly the same sequence of
positions as `scale(k*m)`, element for element and in the same order. -/
theorem scale_scale_enumerate (l : BoundedBravais) (k m : Q3) :
    ((l.scale k).scale m).enumerate = (l.scale (Q3.mul k m)).enumerate := by
  have h : (l.scale k).scale m = l.scale (Q3.mul k m) := by
    simp only [BoundedBravais.scale]
    rw [Q3.mul_mul]
  rw [h]

/-- The `Square(0)` instance after its first `n_atoms` access: the private
cache holds the legitimate value `0`. -/
def squareZeroOnce : BoundedBravais :=
  { kind := .square, shape := [0, 0], lattice_spacing := Q3.one, ratio := Q3.one,
    n_atoms_cache := some (some 0), n_dims_cache := some none }

/-- Claim C5 (code bug evidence): on `Square(0)` the first `n_atoms` access
computes `0` and stores it, yet the second access recomputes anyway (third
component `true` = the `if not self.__n_atoms:` body ran again) because the
cached `0` is falsy — the source violates the compute-at-most-once caching
contract on an all-zero shape. -/
theorem n_atoms_zero_cache_recomputes :
    n_atoms_get (build (.square 0 Q3.one)) = Except.ok (0, squareZeroOnce, true) ∧
      n_atoms_get squareZeroOnce = Except.ok (0, squareZeroOnce, true) :=
  ⟨rfl, rfl⟩

/-- Claim C6: `Square(0)` has shape `(0, 0)`, its `n_atoms` is `0`, and
`enumerate()` yields the empty sequence (no error — in this embedding
`enumerate` is a total function into lists). -/
theorem square_zero_empty (sp : Q3) :
    (build (.square 0 sp)).enumerate = [] ∧
      n_atoms_fst (build (.square 0 sp)) = Except.ok 0 ∧
      (build (.square 0 sp)).shape = [0, 0] :=
  ⟨rfl, rfl, rfl⟩

/-- Claim C7: `Rectangular(width, height, lattice_spacing_x,
lattice_spacing_y)` stores `ratio = lattice_spacing_y / lattice_spacing_x`
(`1 / lattice_spacing_x` when the y spacing is omitted), passes
`lattice_spacing_x` down as the base `lattice_spacing`, has shape
`(width, height)` and second cell vector `(0, ratio)`; concretely,
`Rectangular(2, 3, lattice_spacing_x=2.0)` has ratio `0.5` and second cell
vector `(0, 0.5)`. -/
theorem rectangular_ratio_shape_spacing (w h : ℕ) (lsx : Q3) (lsy : Option Q3) :
    (build (.rectangular w h lsx lsy)).shape = [w, h] ∧
      (build (.rectangular w h lsx lsy)).lattice_spacing = lsx ∧
      (build (.rectangular w h lsx lsy)).ratio = Q3.div (lsy.getD Q3.one) lsx ∧
      cell_vectors (build (.rectangular w h lsx lsy)) =
        [[Q3.one, Q3.zero], [Q3.zero, (build (.rectangular w h lsx lsy)).ratio]] ∧
      (build (.rectangular 2 3 (Q3.ofRat 2) none)).ratio = Q3.ofRat (1/2) ∧
      cell_vectors (build (.rectangular 2 3 (Q3.ofRat 2) none)) =
        [[Q3.one, Q3.zero], [Q3.zero, Q3.ofRat (1/2)]] := by
  refine ⟨rfl, rfl, ?_, ?_, ?_, ?_⟩
  · cases lsy <;> rfl
  · rfl
  · show Q3.div Q3.one (Q3.ofRat 2) = Q3.ofRat (1/2)
    simp only [Q3.div, Q3.inv, Q3.mul, Q3.ofRat, Q3.one, Q3.mk.injEq]
    norm_num
  · show _ = _
    simp only [cell_vectors, build, mkBoundedBravais]
    simp only [Q3.div, Q3.inv, Q3.mul, Q3.ofRat, Q3.one, Q3.mk.injEq]
    norm_num

/-- Claim C8: every user-facing constructor produces an instance on which
the `n_dims` property returns exactly `len(shape)` — the shape tuple the
constructor builds is dimension-matched to the family's cell-vector count. -/
theorem n_dims_eq_shape_length (c : Construction) :
    n_dims_fst (build c) = Except.ok ((build c).shape.length) ∧
      n_dims_value (build c) = (build c).shape.length := by
  cases c <;> exact ⟨rfl, rfl⟩

/-- Claim C9 counterexample: on `Chain(3)` it is not the case that every
cell vector has `n_dims` components — Chain's `n_dims` is 1 but its single
cell vector `[1, 0]` has two components. -/
theorem chain_cell_vector_not_n_dims_dimensional :
    ¬ (∀ v ∈ cell_vectors (build (.chain 3 Q3.one)),
        v.length = n_dims_value (build (.chain 3 Q3.one))) := by
  decide

/-- Claim C9 (amended): every vector returned by `cell_vectors` has exactly
two components for every family — including the 1-dimensional Chain — and
`n_dims` is the number of cell vectors, not their component count. -/
theorem cell_vectors_two_components (c : Construction) :
    ((cell_vectors (build c)).all fun v => v.length == 2) = true ∧
      n_dims_value (build c) = (cell_vectors (build c)).length := by
  cases c <;> exact ⟨rfl, rfl⟩

/-- Claim C10: on the object returned by `scale(factor)` both the `n_atoms`
and the `n_dims` property access raise `AttributeError`: `scale` builds the
copy with `__new__` (no `__init__`) and copies only the declared dataclass
fields, so the name-mangled lazy caches the properties read never exist. -/
theorem scale_result_lazy_caches_missing (l : BoundedBravais) (factor : Q3) :
    n_atoms_get (l.scale factor) = Except.error "AttributeError" ∧
      n_dims_get (l.scale factor) = Except.error "AttributeError" :=
  ⟨rfl, rfl⟩
